import Mathlib

/-!
Verification development for the `syncrepl` repository (python package
`syncrepl_client`).

The reconciliation engine lives in `src/syncrepl_client/__init__.py` in the
class `Syncrepl`.  Its durable store is the SQLite table
`syncrepl_records (uuid PRIMARY KEY, dn UNIQUE, attributes)` created in
`src/syncrepl_client/db.py` (`_upgrade_schema`), plus a settings table that
holds the cookie.  We shallowly embed each engine method over an explicit
state:

* the `syncrepl_records` table is a `List Record`; the SQL statements
  executed by the engine (`SELECT … WHERE uuid = ?`, `SELECT … WHERE dn = ?`,
  `DELETE … WHERE uuid = ?`, `UPDATE … WHERE uuid = ?`, `INSERT`) are
  translated to the corresponding list operations, and `commit()` is an
  explicit event in the emitted trace;
* calls into the user-supplied callback object (`record_add`,
  `record_delete`, `record_rename`, `record_change`, `refresh_done`,
  `cookie_change`) are modelled as emitted events, because the callback is an
  external collaborator supplied by the client;
* Python runtime failures that the method bodies themselves contain are
  modelled as error results (`PyError`): an unbound name raises `NameError`,
  a missing module/class/object attribute raises `AttributeError`, iterating
  a non-iterable raises `TypeError`.  In particular `exceptions.py` defines
  only `ClosedError`, `LDAPUrlError`, `LDAPUrlConflict` and
  `LDAPUrlParseError`, so the reference `exceptions.DBConsistencyWarning` in
  `syncrepl_delete` is an `AttributeError` at run time.

`db.py` itself is half-written (it has outright syntax errors, e.g. line 46
`def bytes_to_uuid(uuid_bytes):a` and line 421
`if 'syncrepl_schema' is not in discovered_tables:`); its schema-check logic
is embedded separately below for the schema-version claim, following the
written control flow of `_check_and_upgrade_schema`.
-/

namespace SyncreplModel

/-- Entry UUIDs as delivered by the server (opaque identity tokens). -/
abbrev UUID := Nat

/-- Distinguished names. -/
abbrev DN := String

/-- Attribute mapping: attribute name to list of values (the engine treats
every attribute as multi-valued and every value as an opaque string). -/
abbrev Attrs := List (String × List String)

/-- One row of the `syncrepl_records` table. -/
structure Record where
  uuid : UUID
  dn : DN
  attributes : Attrs
deriving Repr, DecidableEq

/-- The `syncrepl_records` table. -/
abbrev Table := List Record

/-- `SELECT dn, attributes FROM syncrepl_records WHERE uuid = ?`. -/
def selectByUuid (t : Table) (u : UUID) : Option Record :=
  t.find? (fun r => r.uuid == u)

/-- `SELECT uuid FROM syncrepl_records WHERE dn = ?`. -/
def selectByDn (t : Table) (d : DN) : Option Record :=
  t.find? (fun r => r.dn == d)

/-- `DELETE FROM syncrepl_records WHERE uuid = ?`. -/
def deleteWhereUuid (t : Table) (u : UUID) : Table :=
  t.filter (fun r => r.uuid != u)

/-- `UPDATE syncrepl_records SET dn = ? WHERE uuid = ?`. -/
def updateDnWhereUuid (t : Table) (u : UUID) (d : DN) : Table :=
  t.map (fun r => if r.uuid == u then { r with dn := d } else r)

/-- `UPDATE syncrepl_records SET attributes = ? WHERE uuid = ?`. -/
def updateAttrsWhereUuid (t : Table) (u : UUID) (a : Attrs) : Table :=
  t.map (fun r => if r.uuid == u then { r with attributes := a } else r)

/-- `INSERT INTO syncrepl_records (uuid, dn, attributes) VALUES (?, ?, ?)`. -/
def insertRecord (t : Table) (u : UUID) (d : DN) (a : Attrs) : Table :=
  t ++ [⟨u, d, a⟩]

/-- Observable actions of one engine method: callback invocations on the
user-supplied callback object, store commits, and protocol requests. -/
inductive Event where
  | recordAdd (dn : DN) (attrs : Attrs)
  | recordDelete (dn : DN)
  | recordRename (oldDn newDn : DN)
  | recordChange (dn : DN) (oldAttrs newAttrs : Attrs)
  | refreshDone
  | cookieChange (cookie : String)
  | commit
  | cancelRequested
  | ldapOp
deriving Repr, DecidableEq

/-- Python-level exceptions that escape the embedded methods.
`schemaVersionError` is the error class the specification calls
`SchemaVersionError`; no code in the repository ever raises it (no such
class is defined anywhere in `exceptions.py`). -/
inductive PyError where
  | nameError (n : String)
  | attributeError (n : String)
  | typeError (msg : String)
  | closedError
  | ldapCancelled
  | osError
  | schemaVersionError
deriving Repr, DecidableEq

/-- The engine state: the records table, the `__in_refresh` flag, the
present-set accumulator `__present_uuids` (`none` models the state after
`del self.__present_uuids` in `syncrepl_refreshdone`), the `__please_stop`
flag, whether `unbind` has monkey-patched the public methods away, and the
stored cookie setting. -/
structure State where
  records : Table
  in_refresh : Bool
  present_uuids : Option (List UUID)
  please_stop : Bool
  closed : Bool
  cookie : Option String
deriving Repr, DecidableEq

/-- Result of one engine method call: the state when the call returned (or
when the exception escaped), the events emitted up to that point, and the
escaping Python exception, if any. -/
structure MethodResult where
  state : State
  events : List Event
  err : Option PyError
deriving Repr, DecidableEq

/-- Loop body of `Syncrepl.syncrepl_delete` (`__init__.py` lines 867-901).
For each uuid in order: fetch its dn; if absent, the source constructs
`exceptions.DBConsistencyWarning(...)`, but `exceptions.py` defines no such
class, so an `AttributeError` escapes and the remaining uuids are not
processed.  If present, the row is deleted and the `record_delete` callback
fires with the fetched dn.  After the loop, the source commits only when
`self.__in_refresh is False`. -/
def syncrepl_delete_go (s : State) (evs : List Event) : List UUID → MethodResult
  | [] =>
      if s.in_refresh then ⟨s, evs, none⟩ else ⟨s, evs ++ [.commit], none⟩
  | u :: rest =>
      match selectByUuid s.records u with
      | none => ⟨s, evs, some (.attributeError "exceptions.DBConsistencyWarning")⟩
      | some r =>
          syncrepl_delete_go { s with records := deleteWhereUuid s.records u }
            (evs ++ [.recordDelete r.dn]) rest

/-- `Syncrepl.syncrepl_delete` (`__init__.py` lines 841-901). -/
def syncrepl_delete (s : State) (uuids : List UUID) : MethodResult :=
  syncrepl_delete_go s [] uuids

/-- `Syncrepl.syncrepl_present` (`__init__.py` lines 904-1044).

Case `(some us, false)`: `self.__present_uuids.extend(uuids)`; if the
accumulator attribute was deleted by `syncrepl_refreshdone`, the attribute
access raises `AttributeError`.

Case `(none, false)`: the source iterates over all stored uuids, appending
those missing from the accumulator to `deleted_uuids` - but `deleted_uuids`
is never initialised in this method, so the first append raises `NameError`,
and when nothing is appended, the final `len(deleted_uuids)` raises
`NameError` too; if the accumulator attribute was deleted and the table is
nonempty, the membership test raises `AttributeError` first.  No deletion is
ever reached.

Case `(some us, true)`: delegates to `syncrepl_delete`.

Case `(none, true)`: `pass`. -/
def syncrepl_present (s : State) (uuids : Option (List UUID))
    (refreshDeletes : Bool) : MethodResult :=
  match uuids, refreshDeletes with
  | some us, false =>
      match s.present_uuids with
      | none => ⟨s, [], some (.attributeError "_Syncrepl__present_uuids")⟩
      | some acc => ⟨{ s with present_uuids := some (acc ++ us) }, [], none⟩
  | none, false =>
      match s.present_uuids, s.records with
      | none, _ :: _ => ⟨s, [], some (.attributeError "_Syncrepl__present_uuids")⟩
      | _, _ => ⟨s, [], some (.nameError "deleted_uuids")⟩
  | some us, true => syncrepl_delete s us
  | none, true => ⟨s, [], none⟩

/-- `Syncrepl.syncrepl_entry` (`__init__.py` lines 1047-1179).

If the uuid is already stored and the reported dn differs, the source checks
whether the new dn is occupied; if so it calls
`self.syncrepl_delete(old_uuid)` with a scalar where that method expects a
list, so the `for uuid in uuids` iteration raises `TypeError` (line 1137).
Otherwise it updates the dn and fires `record_rename`, then in all
same-uuid cases updates the attributes and fires `record_change` with the
previously fetched attributes.

If the uuid is new and the dn is occupied, line 1170 reads
`syncrepl_delete(old_uuid)` without `self.`, an unbound name, so `NameError`
escapes before any mutation.  If the dn is free the row is inserted and
`record_add` fires.  No branch of this method commits. -/
def syncrepl_entry (s : State) (dn : DN) (attrs : Attrs) (uuid : UUID) :
    MethodResult :=
  match selectByUuid s.records uuid with
  | some dbRecord =>
      match
        (if dn ≠ dbRecord.dn then
          match selectByDn s.records dn with
          | some _ => Except.error (PyError.typeError "UUID object is not iterable")
          | none =>
              Except.ok (updateDnWhereUuid s.records uuid dn,
                [Event.recordRename dbRecord.dn dn])
        else Except.ok (s.records, [])) with
      | .error e => ⟨s, [], some e⟩
      | .ok (t1, evs1) =>
          ⟨{ s with records := updateAttrsWhereUuid t1 uuid attrs },
            evs1 ++ [.recordChange dn dbRecord.attributes attrs], none⟩
  | none =>
      match selectByDn s.records dn with
      | some _ => ⟨s, [], some (.nameError "syncrepl_delete")⟩
      | none =>
          ⟨{ s with records := insertRecord s.records uuid dn attrs },
            [.recordAdd dn attrs], none⟩

/-- `Syncrepl.syncrepl_refreshdone` (`__init__.py` lines 725-838): fires the
`refresh_done` callback, clears `__in_refresh`, commits, and deletes the
present-set accumulator. -/
def syncrepl_refreshdone (s : State) : MethodResult :=
  ⟨{ s with in_refresh := false, present_uuids := none },
    [.refreshDone, .commit], none⟩

/-- `Syncrepl.please_stop` (`__init__.py` lines 520-552): sets the
`__please_stop` flag under its lock. -/
def please_stop (s : State) : MethodResult :=
  ⟨{ s with please_stop := true }, [], none⟩

/-- What `self.syncrepl_poll(...)` did during one `poll` cycle: returned
`True` (still active), returned `False` (search finished), raised
`ldap.TIMEOUT`, or raised `ldap.CANCELLED`. -/
inductive PollOutcome where
  | active
  | done
  | timeout
  | cancelled
deriving Repr, DecidableEq

/-- Result of `Syncrepl.poll`: state, emitted events, escaping exception, and
the returned boolean (meaningful only when no exception escapes). -/
structure PollResult where
  state : State
  events : List Event
  err : Option PyError
  ret : Bool
deriving Repr, DecidableEq

/-- `Syncrepl.poll` (`__init__.py` lines 555-627).  `ldap.TIMEOUT` is
swallowed, leaving `poll_output = True`.  `ldap.CANCELLED` is re-raised
unless `__please_stop` was set, in which case `False` is returned.  When
`syncrepl_poll` returned `False` and `__in_refresh` is set,
`syncrepl_refreshdone` runs and `False` is returned.  Otherwise - in either
phase - if `__please_stop` is set, `self.cancel(...)` sends a protocol-level
cancellation, and `True` is returned. -/
def poll (s : State) (o : PollOutcome) : PollResult :=
  match o with
  | .cancelled =>
      if s.please_stop then ⟨s, [], none, false⟩
      else ⟨s, [], some .ldapCancelled, false⟩
  | .done =>
      if s.in_refresh then
        let r := syncrepl_refreshdone s
        ⟨r.state, r.events, r.err, false⟩
      else ⟨s, [], none, false⟩
  | .active | .timeout =>
      if s.please_stop then ⟨s, [.cancelRequested], none, true⟩
      else ⟨s, [], none, true⟩

/-- `Syncrepl.syncrepl_get_cookie` (`__init__.py` lines 683-702): reads the
`syncrepl_cookie` setting; no mutation, no events. -/
def syncrepl_get_cookie (s : State) : MethodResult :=
  ⟨s, [], none⟩

/-- `Syncrepl.syncrepl_set_cookie` (`__init__.py` lines 705-722): fires the
`cookie_change` callback, then stores the cookie setting. -/
def syncrepl_set_cookie (s : State) (c : String) : MethodResult :=
  ⟨{ s with cookie := some c }, [.cookieChange c], none⟩

/-- `Syncrepl.unbind` (`__init__.py` lines 445-494): releases the store and
connection, then monkey-patches `please_stop`, `poll`, `sync`,
`syncrepl_get_cookie`, `syncrepl_set_cookie`, `syncrepl_refreshdone`,
`syncrepl_delete`, `syncrepl_present` and `syncrepl_entry` to
`throw_closederror`.  The patched-away condition is modelled by the `closed`
flag. -/
def unbind (s : State) : MethodResult :=
  ⟨{ s with closed := true }, [], none⟩

/-- The public methods that `unbind` monkey-patches to `throw_closederror`
(`__init__.py` lines 483-491), with their arguments. -/
inductive Method where
  | please_stop
  | poll (o : PollOutcome)
  | sync
  | syncrepl_get_cookie
  | syncrepl_set_cookie (c : String)
  | syncrepl_refreshdone
  | syncrepl_delete (us : List UUID)
  | syncrepl_present (us : Option (List UUID)) (rd : Bool)
  | syncrepl_entry (dn : DN) (attrs : Attrs) (u : UUID)
deriving Repr, DecidableEq

/-- `Syncrepl.throw_closederror` (`__init__.py` lines 439-442): raises
`exceptions.ClosedError` without touching anything. -/
def throw_closederror (s : State) : MethodResult :=
  ⟨s, [], some .closedError⟩

/-- Behaviour of each public method on a not-yet-unbound instance.  `sync`
is inherited from the external LDAP connection base class and is modelled as
an opaque transport operation. -/
def runMethod (s : State) : Method → MethodResult
  | .please_stop => please_stop s
  | .poll o =>
      let r := poll s o
      ⟨r.state, r.events, r.err⟩
  | .sync => ⟨s, [.ldapOp], none⟩
  | .syncrepl_get_cookie => syncrepl_get_cookie s
  | .syncrepl_set_cookie c => syncrepl_set_cookie s c
  | .syncrepl_refreshdone => syncrepl_refreshdone s
  | .syncrepl_delete us => syncrepl_delete s us
  | .syncrepl_present us rd => syncrepl_present s us rd
  | .syncrepl_entry dn attrs u => syncrepl_entry s dn attrs u

/-- Method dispatch on an instance: after `unbind`, every patched attribute
resolves to `throw_closederror`; before, the real method body runs. -/
def callMethod (s : State) (m : Method) : MethodResult :=
  if s.closed then throw_closederror s else runMethod s m

/-- `CURRENT_SCHEMA_VERSION` from `src/syncrepl_client/db.py` line 225. -/
def CURRENT_SCHEMA_VERSION : Nat := 1

/-- `DBInterface._check_and_upgrade_schema` (`db.py` lines 377-441), embedded
at the level of its decision logic.  Inputs: the discovered `syncrepl_*`
table names and the rows of `SELECT version FROM syncrepl_schema`.  With no
tables, `_upgrade_schema(0)` creates the schema.  The membership check on
line 421 is written `if 'syncrepl_schema' is not in discovered_tables:`,
which is not even valid Python (a `SyntaxError`; the file also fails to
parse at line 46 `def bytes_to_uuid(uuid_bytes):a`); we follow the written
intent: absence raises a bare `OSError`.  A missing or multiple version row
raises `OSError`; a version newer than `CURRENT_SCHEMA_VERSION` raises a
bare `OSError` (line 435); otherwise validation and, if older, upgrade run
and the check succeeds. -/
def check_and_upgrade_schema (discovered_tables : List String)
    (version_rows : List Nat) : Except PyError Unit :=
  if discovered_tables.isEmpty then .ok ()
  else if discovered_tables.contains "syncrepl_schema" = false then .error .osError
  else
    match version_rows with
    | [v] =>
        if CURRENT_SCHEMA_VERSION < v then .error .osError else .ok ()
    | _ => .error .osError

/-! ## Helper lemmas about the table operations -/

/-- A record of a table whose uuid column is duplicate-free is exactly what
`SELECT … WHERE uuid = ?` returns for its uuid. -/
theorem selectByUuid_eq_some_of_mem (t : Table) (r : Record)
    (hnd : (t.map Record.uuid).Nodup) (hmem : r ∈ t) :
    selectByUuid t r.uuid = some r := by
  induction t with
  | nil => cases hmem
  | cons a rest ih =>
      rw [List.map_cons, List.nodup_cons] at hnd
      rcases List.mem_cons.mp hmem with h | h
      · subst h
        simp [selectByUuid]
      · have hne : (a.uuid == r.uuid) = false := by
          rw [beq_eq_false_iff_ne]
          intro hb
          exact hnd.1 (hb ▸ List.mem_map_of_mem Record.uuid h)
        rw [selectByUuid]
        simp only [List.find?_cons, hne]
        exact ih hnd.2 h

/-- `SELECT … WHERE uuid = ?` misses when no record has the uuid. -/
theorem selectByUuid_eq_none (t : Table) (u : UUID)
    (h : ∀ r ∈ t, r.uuid ≠ u) : selectByUuid t u = none := by
  rw [selectByUuid, List.find?_eq_none]
  intro r hr
  simpa using h r hr

/-- `SELECT … WHERE dn = ?` misses when no record has the dn. -/
theorem selectByDn_eq_none (t : Table) (d : DN)
    (h : ∀ r ∈ t, r.dn ≠ d) : selectByDn t d = none := by
  rw [selectByDn, List.find?_eq_none]
  intro r hr
  simpa using h r hr

/-- Updating the dn and then the attributes of one uuid overwrites that
uuid's row and leaves the rest alone. -/
theorem updateAttrs_updateDn_eq_map (t : Table) (u : UUID) (d : DN) (a : Attrs) :
    updateAttrsWhereUuid (updateDnWhereUuid t u d) u a =
      t.map (fun r => if r.uuid == u then ⟨u, d, a⟩ else r) := by
  rw [updateAttrsWhereUuid, updateDnWhereUuid, List.map_map]
  refine List.map_congr_left ?_
  intro r _
  by_cases h : (r.uuid == u) = true
  · have hu : r.uuid = u := beq_iff_eq.mp h
    simp [Function.comp, h, hu]
  · simp [Function.comp, h]

/-- Overwriting a uuid touches nothing when the uuid is absent. -/
theorem filter_map_overwrite_eq_nil (t : Table) (u : UUID) (d : DN) (a : Attrs)
    (h : ∀ r ∈ t, r.uuid ≠ u) :
    (t.map (fun r => if r.uuid == u then ⟨u, d, a⟩ else r)).filter
      (fun r => r.uuid == u) = [] := by
  rw [List.filter_eq_nil_iff]
  intro r hr
  rcases List.mem_map.mp hr with ⟨r0, hr0, hmap⟩
  have hne : ¬ ((r0.uuid == u) = true) := by
    simpa using h r0 hr0
  rw [if_neg hne] at hmap
  subst hmap
  exact hne

/-- After overwriting the unique row carrying a uuid, selecting on that uuid
returns exactly the overwritten row. -/
theorem filter_map_overwrite_eq_singleton (t : Table) (u : UUID) (d : DN)
    (a : Attrs) (r0 : Record) (hnd : (t.map Record.uuid).Nodup)
    (hmem : r0 ∈ t) (hu : r0.uuid = u) :
    (t.map (fun r => if r.uuid == u then ⟨u, d, a⟩ else r)).filter
      (fun r => r.uuid == u) = [⟨u, d, a⟩] := by
  induction t with
  | nil => cases hmem
  | cons b rest ih =>
      rw [List.map_cons, List.nodup_cons] at hnd
      rcases List.mem_cons.mp hmem with h | h
      · subst h
        have hb : (r0.uuid == u) = true := beq_iff_eq.mpr hu
        have hrest : ∀ r ∈ rest, r.uuid ≠ u := by
          intro r hr he
          apply hnd.1
          have hmm : r.uuid ∈ List.map Record.uuid rest :=
            List.mem_map_of_mem Record.uuid hr
          rw [he, ← hu] at hmm
          exact hmm
        rw [List.map_cons, if_pos hb, List.filter_cons_of_pos (by simp),
          filter_map_overwrite_eq_nil rest u d a hrest]
      · have hb : (b.uuid == u) = false := by
          rw [beq_eq_false_iff_ne]
          intro hbe
          apply hnd.1
          have hmm : r0.uuid ∈ List.map Record.uuid rest :=
            List.mem_map_of_mem Record.uuid h
          rw [hu, ← hbe] at hmm
          exact hmm
        rw [List.map_cons, if_neg (by simp [hb]),
          List.filter_cons_of_neg (by simp [hb])]
        exact ih hnd.2 h

/-- Updating attributes to values every matching row already carries is a
no-op on the table. -/
theorem updateAttrs_eq_self (t : Table) (u : UUID) (a : Attrs)
    (h : ∀ r ∈ t, r.uuid = u → r.attributes = a) :
    updateAttrsWhereUuid t u a = t := by
  induction t with
  | nil => rfl
  | cons b rest ih =>
      rw [updateAttrsWhereUuid, List.map_cons]
      rw [updateAttrsWhereUuid] at ih
      rw [ih fun r hr => h r (List.mem_cons_of_mem b hr)]
      by_cases hb : (b.uuid == u) = true
      · have : b.attributes = a := h b (List.mem_cons_self b rest) (beq_iff_eq.mp hb)
        rw [if_pos hb, ← this]
      · rw [if_neg hb]

/-- `find?` skips a prefix on which the predicate always fails. -/
theorem find?_append_of_none {p : Record → Bool} (l1 l2 : Table)
    (h : l1.find? p = none) : (l1 ++ l2).find? p = l2.find? p := by
  rw [List.find?_append, h, Option.none_or]

/-! ## Concrete states used to evaluate the embedded methods -/

/-- A persist-phase store holding one record `(U1 = 1, "cn=x")`. -/
def collisionState : State :=
  { records := [⟨1, "cn=x", []⟩], in_refresh := false, present_uuids := none,
    please_stop := false, closed := false, cookie := none }

/-- A mid-refresh store holding `{U1, U2, U3} = {1, 2, 3}` with present-set
accumulator `{U1, U2} = [1, 2]`. -/
def reconcileState : State :=
  { records := [⟨1, "cn=a", []⟩, ⟨2, "cn=b", []⟩, ⟨3, "cn=c", []⟩],
    in_refresh := true, present_uuids := some [1, 2], please_stop := false,
    closed := false, cookie := none }

/-- A persist-phase store holding only the record `(2, "cn=b")`. -/
def deletionState : State :=
  { records := [⟨2, "cn=b", []⟩], in_refresh := false, present_uuids := some [],
    please_stop := false, closed := false, cookie := none }

/-- A refresh-phase session whose stop-requested flag has been set. -/
def refreshStopState : State :=
  { records := [], in_refresh := true, present_uuids := some [],
    please_stop := true, closed := false, cookie := none }

/-- A mid-refresh store with one record and accumulator `[9]`. -/
def frameState : State :=
  { records := [⟨5, "cn=e", []⟩], in_refresh := true, present_uuids := some [9],
    please_stop := false, closed := false, cookie := none }

/-! ## Claims -/

/-- Claim C1: the claim says that `syncrepl_entry` for a new UUID whose DN is
already occupied deletes the old record (emitting a delete notification) and
then inserts the new record (emitting an add notification).  In the source,
that branch (line 1170) calls `syncrepl_delete(old_uuid)` without `self.`,
an unbound name, so the call dies with `NameError` before deleting or
inserting anything: with `(1, "cn=x")` stored, `syncrepl_entry("cn=x", _, 2)`
raises, leaves the store untouched, and emits no notification at all. -/
theorem syncrepl_entry_new_uuid_dn_collision_raises :
    syncrepl_entry collisionState "cn=x" [("cn", ["x"])] 2 =
      ⟨collisionState, [], some (.nameError "syncrepl_delete")⟩ := by
  rfl

/-- Claim C2: the claim says that `syncrepl_present(None, False)` deletes
exactly the stored identities missing from the present-set accumulator.  In
the source the local `deleted_uuids` is never initialised, so the branch
always raises `NameError` and never deletes anything: with store `{1, 2, 3}`
and accumulator `[1, 2]`, the call raises and `3` survives. -/
theorem syncrepl_present_none_false_raises :
    syncrepl_present reconcileState none false =
      ⟨reconcileState, [], some (.nameError "deleted_uuids")⟩ := by
  rfl

/-- Claim C3: the claim says that deleting an unknown identity signals a
non-fatal warning and is skipped, with the remaining identities still
processed.  In the source, the unknown-identity branch constructs
`exceptions.DBConsistencyWarning`, a class `exceptions.py` does not define,
so an `AttributeError` escapes and aborts the whole call: deleting `[1, 2]`
against a store holding only `2` raises at `1` and never deletes `2`,
whereas deleting `[2]` alone does remove the record and emit the delete
notification with its last-known name. -/
theorem syncrepl_delete_unknown_uuid_aborts :
    syncrepl_delete deletionState [1, 2] =
      ⟨deletionState, [], some (.attributeError "exceptions.DBConsistencyWarning")⟩ ∧
    syncrepl_delete deletionState [2] =
      ⟨{ deletionState with records := [] },
        [.recordDelete "cn=b", .commit], none⟩ := by
  exact ⟨rfl, rfl⟩

/-- Claim C8: the claim says a stop request during the refresh phase has no
observable effect until the refresh completes.  In the source, `poll` checks
`__please_stop` on every cycle without consulting `__in_refresh` and calls
`self.cancel(...)` immediately, so a still-refreshing session whose flag is
set sends a protocol-level cancellation on its next active poll cycle,
contradicting both the claim and `please_stop`'s own docstring. -/
theorem poll_requests_cancel_during_refresh :
    refreshStopState.in_refresh = true ∧
    poll refreshStopState .active =
      ⟨refreshStopState, [.cancelRequested], none, true⟩ := by
  exact ⟨rfl, rfl⟩

/-- Claim C9: the claim says opening a store whose persisted schema version
is newer than the engine's fails fatally with a schema-version error before
any record access.  The check in `_check_and_upgrade_schema` (line 435)
raises a bare `OSError`, not any schema-version error class (no
`SchemaVersionError` exists anywhere in the repository), and `db.py` as
shipped cannot even be imported because of its syntax errors.  Evaluating
the written check on a store at version 2 (engine supports 1): it raises
`OSError`. -/
theorem schema_check_newer_version_oserror :
    check_and_upgrade_schema
        ["syncrepl_schema", "syncrepl_records", "syncrepl_settings"] [2] =
      .error .osError ∧
    PyError.osError ≠ PyError.schemaVersionError := by
  exact ⟨rfl, by decide⟩

/-- Claim C10: after `unbind` has monkey-patched the instance, every
subsequent call to `please_stop`, `poll`, `sync`, `syncrepl_get_cookie`,
`syncrepl_set_cookie`, `syncrepl_refreshdone`, `syncrepl_delete`,
`syncrepl_present` or `syncrepl_entry` resolves to `throw_closederror` and
raises `ClosedError`, touching neither the store nor the connection. -/
theorem calls_after_unbind_raise_closederror (s : State) (m : Method) :
    callMethod (unbind s).state m =
      ⟨(unbind s).state, [], some .closedError⟩ := by
  rfl

/-- Claim C7: `syncrepl_present` with a uuid list and `refreshDeletes =
False` only extends the present-set accumulator - the records table, phase
flag and everything else are untouched, and no events are emitted - and
`syncrepl_present(None, True)` does nothing at all. -/
theorem syncrepl_present_frame (s : State) (us acc : List UUID)
    (hacc : s.present_uuids = some acc) :
    syncrepl_present s (some us) false =
      ⟨{ s with present_uuids := some (acc ++ us) }, [], none⟩ ∧
    syncrepl_present s none true = ⟨s, [], none⟩ := by
  refine ⟨?_, rfl⟩
  simp only [syncrepl_present, hacc]

/-- Witness for C7: the frame property evaluated on a concrete mid-refresh
state. -/
theorem syncrepl_present_frame_witness :
    syncrepl_present frameState (some [4]) false =
      ⟨{ frameState with present_uuids := some ([9] ++ [4]) }, [], none⟩ ∧
    syncrepl_present frameState none true = ⟨frameState, [], none⟩ :=
  syncrepl_present_frame frameState [4] [9] rfl

/-- When the delete loop completes without an exception outside the refresh
phase, its trace ends in a commit. -/
theorem syncrepl_delete_go_commit (us : List UUID) :
    ∀ (s : State) (evs : List Event), s.in_refresh = false →
      (syncrepl_delete_go s evs us).err = none →
      Event.commit ∈ (syncrepl_delete_go s evs us).events := by
  induction us with
  | nil =>
      intro s evs hp _
      simp [syncrepl_delete_go, hp]
  | cons u rest ih =>
      intro s evs hp herr
      simp only [syncrepl_delete_go] at herr ⊢
      cases hsel : selectByUuid s.records u with
      | none => simp [hsel] at herr
      | some r =>
          simp only [hsel] at herr ⊢
          exact ih _ _ hp herr

/-- No branch of `syncrepl_entry` ever commits. -/
theorem syncrepl_entry_no_commit (s : State) (dn : DN) (attrs : Attrs)
    (u : UUID) : Event.commit ∉ (syncrepl_entry s dn attrs u).events := by
  rw [syncrepl_entry]
  cases hsel : selectByUuid s.records u with
  | none =>
      simp only [hsel]
      cases hdn : selectByDn s.records dn with
      | none => simp [hdn]
      | some r => simp [hdn]
  | some r =>
      simp only [hsel]
      by_cases hne : dn = r.dn
      · simp [hne]
      · cases hdn : selectByDn s.records dn with
        | none => simp [hne, hdn]
        | some r2 => simp [hne, hdn]

/-- Claim C4 (amended): a store commit occurs at the refresh-to-persist
transition and after every completed persist-phase `syncrepl_delete`, but
`syncrepl_entry` never commits, so persist-phase record inserts and updates
return without a commit. -/
theorem commit_policy_amended (s : State) (us : List UUID)
    (hp : s.in_refresh = false) :
    Event.commit ∈ (syncrepl_refreshdone s).events ∧
    ((syncrepl_delete s us).err = none →
      Event.commit ∈ (syncrepl_delete s us).events) ∧
    ∀ dn attrs u, Event.commit ∉ (syncrepl_entry s dn attrs u).events := by
  refine ⟨by simp [syncrepl_refreshdone], ?_, ?_⟩
  · intro herr
    exact syncrepl_delete_go_commit us s [] hp herr
  · intro dn attrs u
    exact syncrepl_entry_no_commit s dn attrs u

/-- A persist-phase session with an empty store. -/
def persistAddState : State :=
  { records := [], in_refresh := false, present_uuids := none,
    please_stop := false, closed := false, cookie := none }

/-- Counterexample for C4: a persist-phase `syncrepl_entry` insert completes
successfully, mutates the store, and returns with no commit in its trace,
so the mutation is not durable when the handler returns. -/
theorem persist_entry_add_commits_nothing :
    persistAddState.in_refresh = false ∧
    (syncrepl_entry persistAddState "cn=a" [] 1).err = none ∧
    (syncrepl_entry persistAddState "cn=a" [] 1).state.records =
      [⟨1, "cn=a", []⟩] ∧
    (syncrepl_entry persistAddState "cn=a" [] 1).events =
      [.recordAdd "cn=a" []] ∧
    Event.commit ∉ (syncrepl_entry persistAddState "cn=a" [] 1).events := by
  refine ⟨rfl, rfl, rfl, rfl, ?_⟩
  decide

/-- A persist-phase session with one record `(3, "cn=c")`. -/
def persistDeleteState : State :=
  { records := [⟨3, "cn=c", []⟩], in_refresh := false, present_uuids := none,
    please_stop := false, closed := false, cookie := none }

/-- Witness for C4 (amended), evaluated on a concrete persist-phase state. -/
theorem commit_policy_amended_witness :
    Event.commit ∈ (syncrepl_refreshdone persistDeleteState).events ∧
    Event.commit ∈ (syncrepl_delete persistDeleteState [3]).events ∧
    Event.commit ∉ (syncrepl_entry persistDeleteState "cn=z" [] 9).events :=
  ⟨(commit_policy_amended persistDeleteState [3] rfl).1,
   (commit_policy_amended persistDeleteState [3] rfl).2.1 rfl,
   (commit_policy_amended persistDeleteState [3] rfl).2.2 "cn=z" [] 9⟩

/-- Claim C5: for a stored record `(u, dnA)` in a well-keyed table and a
fresh name `dnB`, `syncrepl_entry dnB attrs u` succeeds, emits exactly a
rename followed by a change notification (no delete), and afterwards `u`'s
unique row carries the new name and attributes. -/
theorem rename_preserves_identity (s : State) (u : UUID) (dnA dnB : DN)
    (a0 a1 : Attrs)
    (hnd : (s.records.map Record.uuid).Nodup)
    (hmem : (⟨u, dnA, a0⟩ : Record) ∈ s.records)
    (hne : dnB ≠ dnA)
    (hfree : ∀ r ∈ s.records, r.dn ≠ dnB) :
    (syncrepl_entry s dnB a1 u).err = none ∧
    (syncrepl_entry s dnB a1 u).events =
      [.recordRename dnA dnB, .recordChange dnB a0 a1] ∧
    (syncrepl_entry s dnB a1 u).state.records.filter (fun r => r.uuid == u) =
      [⟨u, dnB, a1⟩] ∧
    ∀ d, Event.recordDelete d ∉ (syncrepl_entry s dnB a1 u).events := by
  have hsel : selectByUuid s.records u = some ⟨u, dnA, a0⟩ :=
    selectByUuid_eq_some_of_mem s.records ⟨u, dnA, a0⟩ hnd hmem
  have hdn : selectByDn s.records dnB = none :=
    selectByDn_eq_none s.records dnB hfree
  have hmain : syncrepl_entry s dnB a1 u =
      ⟨{ s with records :=
          updateAttrsWhereUuid (updateDnWhereUuid s.records u dnB) u a1 },
        [.recordRename dnA dnB, .recordChange dnB a0 a1], none⟩ := by
    simp only [syncrepl_entry, hsel]
    rw [if_pos hne]
    simp only [hdn]
    rfl
  refine ⟨by rw [hmain], by rw [hmain], ?_, ?_⟩
  · rw [hmain]
    show (updateAttrsWhereUuid (updateDnWhereUuid s.records u dnB) u a1).filter
      (fun r => r.uuid == u) = [⟨u, dnB, a1⟩]
    rw [updateAttrs_updateDn_eq_map]
    exact filter_map_overwrite_eq_singleton s.records u dnB a1 ⟨u, dnA, a0⟩
      hnd hmem rfl
  · intro d
    rw [hmain]
    simp

/-- A persist-phase store holding one record `(7, "cn=a")`. -/
def renameState : State :=
  { records := [⟨7, "cn=a", []⟩], in_refresh := false, present_uuids := none,
    please_stop := false, closed := false, cookie := none }

/-- Witness for C5, evaluated on a concrete one-record store. -/
theorem rename_preserves_identity_witness :
    (syncrepl_entry renameState "cn=b" [("cn", ["b"])] 7).err = none ∧
    (syncrepl_entry renameState "cn=b" [("cn", ["b"])] 7).state.records.filter
      (fun r => r.uuid == 7) = [⟨7, "cn=b", [("cn", ["b"])]⟩] ∧
    Event.recordDelete "cn=a" ∉
      (syncrepl_entry renameState "cn=b" [("cn", ["b"])] 7).events :=
  ⟨(rename_preserves_identity renameState 7 "cn=a" "cn=b" [] [("cn", ["b"])]
      (by decide) (by decide) (by decide) (by decide)).1,
   (rename_preserves_identity renameState 7 "cn=a" "cn=b" [] [("cn", ["b"])]
      (by decide) (by decide) (by decide) (by decide)).2.2.1,
   (rename_preserves_identity renameState 7 "cn=a" "cn=b" [] [("cn", ["b"])]
      (by decide) (by decide) (by decide) (by decide)).2.2.2 "cn=a"⟩

/-- Claim C6 (amended): applying the same `(identity, name, attributes)`
notification twice to a store containing neither the identity nor the name
yields exactly one record for it, with a single add notification from the
first application and a single content-preserving change notification from
the second; the second application leaves the table unchanged. -/
theorem idempotent_upsert_amended (s : State) (u : UUID) (dn : DN) (a : Attrs)
    (hu : ∀ r ∈ s.records, r.uuid ≠ u)
    (hd : ∀ r ∈ s.records, r.dn ≠ dn) :
    (syncrepl_entry s dn a u).err = none ∧
    (syncrepl_entry s dn a u).events = [.recordAdd dn a] ∧
    (syncrepl_entry (syncrepl_entry s dn a u).state dn a u).err = none ∧
    (syncrepl_entry (syncrepl_entry s dn a u).state dn a u).events =
      [.recordChange dn a a] ∧
    (syncrepl_entry (syncrepl_entry s dn a u).state dn a u).state.records =
      s.records ++ [⟨u, dn, a⟩] ∧
    (syncrepl_entry (syncrepl_entry s dn a u).state dn a u).state.records.filter
      (fun r => r.uuid == u) = [⟨u, dn, a⟩] := by
  have hsel1 : selectByUuid s.records u = none :=
    selectByUuid_eq_none s.records u hu
  have hdn1 : selectByDn s.records dn = none :=
    selectByDn_eq_none s.records dn hd
  have h1 : syncrepl_entry s dn a u =
      ⟨{ s with records := insertRecord s.records u dn a },
        [.recordAdd dn a], none⟩ := by
    simp only [syncrepl_entry, hsel1, hdn1]
  have hsel2 : selectByUuid (insertRecord s.records u dn a) u =
      some ⟨u, dn, a⟩ := by
    rw [selectByUuid, insertRecord, find?_append_of_none _ _ hsel1]
    simp
  have hupd : updateAttrsWhereUuid (insertRecord s.records u dn a) u a =
      insertRecord s.records u dn a := by
    apply updateAttrs_eq_self
    intro r hr hru
    rcases List.mem_append.mp hr with h | h
    · exact absurd hru (hu r h)
    · rw [List.mem_singleton.mp h]
  have h2 : ∀ s2 : State, s2.records = insertRecord s.records u dn a →
      syncrepl_entry s2 dn a u = ⟨s2, [.recordChange dn a a], none⟩ := by
    intro s2 hrec
    have hsel2' : selectByUuid s2.records u = some ⟨u, dn, a⟩ := by
      rw [hrec]; exact hsel2
    have hupd' : updateAttrsWhereUuid s2.records u a = s2.records := by
      rw [hrec]; exact hupd
    simp [syncrepl_entry, hsel2', hupd']
  have hst : (syncrepl_entry s dn a u).state.records =
      insertRecord s.records u dn a := by
    rw [h1]
  have h2' := h2 (syncrepl_entry s dn a u).state hst
  refine ⟨by rw [h1], by rw [h1], by rw [h2'], by rw [h2'], ?_, ?_⟩
  · rw [h2', hst, insertRecord]
  · rw [h2', hst, insertRecord, List.filter_append]
    have hnil : s.records.filter (fun r => r.uuid == u) = [] := by
      rw [List.filter_eq_nil_iff]
      intro r hr
      simpa using hu r hr
    rw [hnil]
    simp

/-- The one-record store from the C1 scenario reused with fresh attribute
values, so the claimed post-state record matches nothing already stored. -/
def occupiedDnState : State :=
  { records := [⟨1, "cn=x", []⟩], in_refresh := false, present_uuids := none,
    please_stop := false, closed := false, cookie := none }

/-- Counterexample for C6 as stated: with `(1, "cn=x")` stored, the store
does not contain identity 2, yet applying `(2, "cn=x", attrs)` twice leaves
zero records for identity 2 (both applications die in the occupied-DN branch
with `NameError`), not exactly one. -/
theorem idempotent_upsert_counterexample :
    (syncrepl_entry occupiedDnState "cn=x" [("cn", ["x"])] 2).err =
      some (.nameError "syncrepl_delete") ∧
    (syncrepl_entry (syncrepl_entry occupiedDnState "cn=x" [("cn", ["x"])] 2).state
      "cn=x" [("cn", ["x"])] 2).state.records.filter (fun r => r.uuid == 2) =
      [] := by
  exact ⟨rfl, rfl⟩

/-- An empty persist-phase store. -/
def emptyStoreState : State :=
  { records := [], in_refresh := false, present_uuids := none,
    please_stop := false, closed := false, cookie := none }

/-- Witness for C6 (amended), evaluated on an empty store. -/
theorem idempotent_upsert_amended_witness :
    (syncrepl_entry emptyStoreState "cn=y" [("cn", ["y"])] 4).err = none ∧
    (syncrepl_entry (syncrepl_entry emptyStoreState "cn=y" [("cn", ["y"])] 4).state
      "cn=y" [("cn", ["y"])] 4).state.records =
      emptyStoreState.records ++ [⟨4, "cn=y", [("cn", ["y"])]⟩] :=
  ⟨(idempotent_upsert_amended emptyStoreState 4 "cn=y" [("cn", ["y"])]
      (by decide) (by decide)).1,
   (idempotent_upsert_amended emptyStoreState 4 "cn=y" [("cn", ["y"])]
      (by decide) (by decide)).2.2.2.2.1⟩

end SyncreplModel
